import Mathlib

/-!
Shallow embedding of `deepchem/models/openvino_model.py` (class `OpenVINOModel`).

Modelling decisions, tied to the source lines:

* An input blob (a NumPy array handed to the engine) is modelled by its first
  dimension only: a `List Int` of "rows".  Padding with `np.zeros` (lines
  160-162) appends zero rows; trimming `output[:last_batch_size]` (line 196)
  is `List.take`.
* A batch from the generator is the `inputs` list of arrays; `labels` and
  `weights` (line 147) are never used by the code and are dropped from the
  model.  `inputs[0]` (line 153) is `List.head?` with a Python `IndexError`
  when the batch is empty.
* The external inference engine is an `ExecNet`: its request pool has
  `numRequests` slots; submitting blob `x` to a slot and later reading
  `request.output_blobs[out_name].buffer` yields `netFun x`; the buffer of a
  slot that never ran an inference is `initBuf`.
* The engine's nondeterminism (which idle slot `get_idle_request_id` hands
  out, what status each `wait` returns) is an explicit `Sched`: per loop
  iteration a first idle id, the status of `wait(num_requests=1)`, and the
  retried idle id; plus the status of the final `wait()` (line 188).
* Python list indexing (negative indices wrap; out of range raises
  `IndexError`) is `pyGet`/`pySet`.  Fallible code returns `Except PyErr`.
* Externals that do not affect the modelled state (the ONNX export buffer,
  the dummy `torch.randn` tensor, file contents on disk, the Model Optimizer
  subprocess) are recorded as `Event`s in a trace; the compiled network an
  external read returns is a parameter (`compiled`), and the Model Optimizer
  exit code is a parameter `moExitCode` (`subprocess.run(..., check=True)`
  raises on a nonzero exit).
* The module-level flag `is_available` (lines 14-24) is threaded as a
  boolean parameter `avail`.
-/

set_option autoImplicit false

namespace OpenVINO

/-- Kinds of Python exceptions the modelled code can raise. -/
inductive PyErr where
  | assertError
  | indexError
  | nameError
  | stopIteration
  | waitFailed
  | invalidRequestId
  | subprocessError
  deriving DecidableEq, Repr

/-- A node of the frozen TensorFlow `graph_def` (lines 86-92): only the fields
the code inspects are kept (`op`, `name`, and `attr.shape.shape.dim[0].size`). -/
structure GNode where
  op : String
  name : String
  dim0 : Int
  deriving DecidableEq, Repr

/-- Observable effects of the adapter on the external world, recorded in the
order the source performs them. -/
inductive Event where
  | freezeGraph
  | writeFile (path : String) (content : List GNode)
  | runMO (strictCheck : Bool)
  | removeFile (path : String)
  | readNetworkFiles (xmlPath binPath : String)
  | exportONNX
  | readNetworkBuffer
  | loadNetwork (device : String)
  | asyncInfer (slot : Nat) (blob : List Int)
  deriving DecidableEq, Repr

/-- The engine-compiled, device-loaded network (`self.exec_net`): input/output
names, the size of the asynchronous request pool, the semantic function the
device computes per submitted blob, and the contents of the output buffer of a
request slot that never ran. -/
structure ExecNet where
  inputInfo : List String
  outputs : List String
  numRequests : Nat
  netFun : List Int → List Int
  initBuf : List Int

/-- The user-supplied trained model: either a PyTorch module or a
TensorFlow/Keras model (with its frozen graph).  `compiled` is the network the
external `ie.read_network` call produces for it. -/
inductive SrcModel where
  | torch (compiled : ExecNet)
  | keras (graph : List GNode) (compiled : ExecNet)

/-- The Python object state of `OpenVINOModel`.  `slots` models the last blob
submitted to each request of `exec_net.requests` (`none` = never ran); it
lives here because the request objects persist across calls. -/
structure OpenVINOModel where
  ie : Bool
  exec_net : Option ExecNet
  model : SrcModel
  model_dir : String
  batch_size : Nat
  outputs : List (Option (List Int))
  slots : List (Option (List Int))

/-- `__init__` (lines 35-41). -/
def init (avail : Bool) (model : SrcModel) (model_dir : String) (batch_size : Nat) :
    OpenVINOModel :=
  { ie := avail, exec_net := none, model := model, model_dir := model_dir,
    batch_size := batch_size, outputs := [], slots := [] }

/-- The method `is_available` (lines 209-210) returns the module-level flag. -/
def is_available (avail : Bool) (_m : OpenVINOModel) : Bool := avail

/-- Python list index resolution: negative indices wrap from the end; a
resolved index out of `[0, len)` is invalid. -/
def pyIdx (len : Nat) (i : Int) : Option Nat :=
  let j := if i < 0 then (len : Int) + i else i
  if 0 ≤ j ∧ j < (len : Int) then some j.toNat else none

/-- Python list read `l[i]`: `IndexError` when invalid. -/
def pyGet {α : Type} (l : List α) (i : Int) : Except PyErr α :=
  match pyIdx l.length i with
  | none => .error .indexError
  | some j =>
    match l.get? j with
    | none => .error .indexError
    | some v => .ok v

/-- Python list write `l[i] = v`: `IndexError` when invalid. -/
def pySet {α : Type} (l : List α) (i : Int) (v : α) : Except PyErr (List α) :=
  match pyIdx l.length i with
  | none => .error .indexError
  | some j => .ok (l.set j v)

/-- Total list write, used where the source has already validated the index
by an earlier read of the same position. -/
def setI {α : Type} (l : List α) (i : Int) (v : α) : List α :=
  match pyIdx l.length i with
  | none => l
  | some j => l.set j v

/-- `request.output_blobs[out_name].buffer` of request slot `r`. -/
def slotBuf (net : ExecNet) (slots : List (Option (List Int))) (r : Nat) : List Int :=
  match slots.getD r none with
  | none => net.initBuf
  | some x => net.netFun x

/-- The engine's answers for one loop iteration: the first
`get_idle_request_id` result, the status of `wait(num_requests=1)` (true =
`StatusCode.OK`), and the `get_idle_request_id` result after that wait. -/
structure SchedStep where
  idleId : Int
  waitOk : Bool
  retryId : Int

/-- A full engine schedule: one `SchedStep` per loop iteration, plus the
status of the final `wait()` at line 188. -/
structure Sched where
  steps : Nat → SchedStep
  finalWaitOk : Bool

/-- One batch pulled from the generator: its `inputs` list of arrays. -/
abbrev Batch := List (List Int)

/-- Mutable state of the `__call__` loop: `self.outputs`, the local list
`infer_request_input_id`, the request-slot blobs, the local variable
`last_batch_size` (`none` = not yet bound; using it then is a `NameError`),
and the event trace. -/
structure CallSt where
  outputs : List (Option (List Int))
  reqIds : List Int
  slots : List (Option (List Int))
  lastSize : Option Nat
  trace : List Event

/-- The request slot the iteration ends up using, as the source computes it
(lines 166-173); it depends only on the schedule step.  Meaningful when the
step raises no error. -/
def chosenSlot (s : SchedStep) : Int :=
  if 0 ≤ s.idleId then s.idleId else s.retryId

/-- Lines 155-163: pad a short final batch with zero rows; a batch larger
than `batch_size` fails the assertion at line 159. -/
def padBatch (bs : Nat) (inputs0 : List Int) : Except PyErr (List Int) :=
  if inputs0.length = bs then .ok inputs0
  else if inputs0.length < bs then .ok (inputs0 ++ List.replicate (bs - inputs0.length) 0)
  else .error .assertError

/-- Lines 165-173: acquire an idle request slot, waiting once when none is
idle; raise on a non-OK wait status or a still-negative retried id. -/
def pickSlot (s : SchedStep) : Except PyErr Int :=
  if 0 ≤ s.idleId then .ok s.idleId
  else if s.waitOk = false then .error .waitFailed
  else if s.retryId < 0 then .error .invalidRequestId
  else .ok s.retryId

/-- Lines 175-180: before reusing slot `r`, copy out the prediction of the
batch (`outId`) that previously occupied it. -/
def copyPrev (net : ExecNet) (st : CallSt) (r : Int) (outId : Int) :
    Except PyErr (List (Option (List Int))) :=
  if outId = -1 then .ok st.outputs
  else pySet st.outputs outId (some (slotBuf net st.slots r.toNat))

/-- Body of the `for inp_id, batch in enumerate(generator_copy)` loop
(lines 146-185), for one batch.  `keras_model` and `torch_model` are `None`
(their branches at lines 148-152 are not taken). -/
def call_step (bs : Nat) (net : ExecNet) (s : SchedStep) (inpId : Nat) (batch : Batch)
    (st : CallSt) : Except PyErr CallSt :=
  match batch.head? with
  | none => .error .indexError
  | some inputs0 =>
    match padBatch bs inputs0 with
    | .error e => .error e
    | .ok blob =>
      match pickSlot s with
      | .error e => .error e
      | .ok r =>
        match pyGet st.reqIds r with
        | .error e => .error e
        | .ok outId =>
          match copyPrev net st r outId with
          | .error e => .error e
          | .ok outs =>
            .ok { outputs := outs ++ [none],
                  reqIds := setI st.reqIds r (Int.ofNat inpId),
                  slots := setI st.slots r (some blob),
                  lastSize := some inputs0.length,
                  trace := st.trace ++ [.asyncInfer r.toNat blob] }

/-- The whole enumerate loop, starting at batch ordinal `i`. -/
def run_loop (bs : Nat) (net : ExecNet) (steps : Nat → SchedStep) :
    Nat → List Batch → CallSt → Except PyErr CallSt
  | _, [], st => .ok st
  | i, b :: rest, st =>
    match call_step bs net (steps i) i b st with
    | .error e => .error e
    | .ok st1 => run_loop bs net steps (i + 1) rest st1

/-- One iteration of the drain loop (lines 191-198) for request slot `r`
whose recorded input ordinal is `outId`. -/
def drain_one (net : ExecNet) (r : Nat) (outId : Int) (st : CallSt) :
    Except PyErr CallSt :=
  match pyGet st.outputs outId with
  | .error e => .error e
  | .ok (some _) => .ok st
  | .ok none =>
    if outId = (st.outputs.length : Int) - 1 then
      match st.lastSize with
      | none => .error .nameError
      | some ls =>
        match pySet st.outputs outId (some ((slotBuf net st.slots r).take ls)) with
        | .error e => .error e
        | .ok outs => .ok { st with outputs := outs }
    else
      match pySet st.outputs outId (some (slotBuf net st.slots r)) with
      | .error e => .error e
      | .ok outs => .ok { st with outputs := outs }

/-- The drain loop `for infer_request_id, out_id in enumerate(...)`. -/
def drain_loop (net : ExecNet) : Nat → List Int → CallSt → Except PyErr CallSt
  | _, [], st => .ok st
  | r, outId :: rest, st =>
    match drain_one net r outId st with
    | .error e => .error e
    | .ok st1 => drain_loop net (r + 1) rest st1

/-- `_read_torch_model` (lines 50-69): tees the generator, takes the first
batch from the copy (`StopIteration` on an empty generator), asserts it has
exactly one input array, exports to ONNX and reads the network from the
buffer.  The tee of a pure finite generator is duplication, so the returned
generator is `gen` itself. -/
def read_torch_model (compiled : ExecNet) (gen : List Batch) :
    Except PyErr (ExecNet × List Batch × List Event) :=
  match gen with
  | [] => .error .stopIteration
  | first :: _ =>
    if first.length = 1 then .ok (compiled, gen, [.exportONNX, .readNetworkBuffer])
    else .error .assertError

/-- Python `str.startswith`, computed on the character lists (structurally
recursive, unlike `String.startsWith`). -/
def strStartsWith (s p : String) : Bool :=
  p.data.isPrefixOf s.data

/-- `graph_def` node processing (lines 86-92): the source walks the node list
in reverse over indices, deleting training-only placeholders and pinning an
unknown batch dimension; each decision depends only on the node itself, so
the reversed in-place loop is an elementwise `filterMap`. -/
def processNode (batch_size : Nat) (n : GNode) : Option GNode :=
  if n.op = "Placeholder" then
    if strStartsWith n.name "unused_control_flow_input" then none
    else if n.dim0 = -1 then some { n with dim0 := (batch_size : Int) }
    else some n
  else some n

/-- The processed `graph_def` written to `model.pb`. -/
def processGraph (batch_size : Nat) (g : List GNode) : List GNode :=
  g.filterMap (processNode batch_size)

/-- `_read_tf_model` (lines 78-110): freeze, process the graph, write the
`.pb`, run the Model Optimizer with `check=True` (raising on a nonzero exit
code `moExitCode`), remove the `.pb`, read the network back from the `.xml`
and `.bin` sidecar files. -/
def read_tf_model (batch_size : Nat) (graph : List GNode) (compiled : ExecNet)
    (moExitCode : Nat) (model_dir : String) : Except PyErr (ExecNet × List Event) :=
  let g := processGraph batch_size graph
  let pb := model_dir ++ "/model.pb"
  if moExitCode = 0 then
    .ok (compiled,
         [.freezeGraph, .writeFile pb g, .runMO true, .removeFile pb,
          .readNetworkFiles (model_dir ++ "/model.xml") (model_dir ++ "/model.bin")])
  else .error .subprocessError

/-- `_load_model` (lines 112-125): asserts availability, branches on the
model's framework type, loads the network to the CPU device, creating the
request pool (all buffers fresh). -/
def load_model (avail : Bool) (m : OpenVINOModel) (gen : List Batch) (moExitCode : Nat) :
    Except PyErr (ExecNet × OpenVINOModel × List Batch × List Event) :=
  if avail then
    match m.model with
    | .torch compiled =>
      match read_torch_model compiled gen with
      | .error e => .error e
      | .ok (net, gen2, ev) =>
        .ok (net,
             { m with exec_net := some net, slots := List.replicate net.numRequests none },
             gen2, ev ++ [.loadNetwork "CPU"])
    | .keras graph compiled =>
      match read_tf_model m.batch_size graph compiled moExitCode m.model_dir with
      | .error e => .error e
      | .ok (net, ev) =>
        .ok (net,
             { m with exec_net := some net, slots := List.replicate net.numRequests none },
             gen, ev ++ [.loadNetwork "CPU"])
  else .error .assertError

/-- Result of `__call__`: the updated object (returned as `self`), the
replayable generator, and the event trace. -/
abbrev CallRes := OpenVINOModel × List Batch × List Event

/-- Lines 187-200 of `__call__`: the final `wait()` status check, the drain
loop, and the construction of the return value. -/
def call_finish (net : ExecNet) (sched : Sched) (m1 : OpenVINOModel) (gen1 : List Batch)
    (st1 : CallSt) : Except PyErr CallRes :=
  if sched.finalWaitOk then
    match drain_loop net 0 st1.reqIds st1 with
    | .error e => .error e
    | .ok st2 =>
      .ok ({ m1 with outputs := st2.outputs, slots := st2.slots }, gen1, st2.trace)
  else .error .waitFailed

/-- `__call__` after the network is in hand (lines 136-200): the two
single-input/single-output assertions, the fresh `infer_request_input_id`
list, the tee (duplication on pure lists), the enumerate loop, and the finish
(final wait and drain). -/
def call_body (net : ExecNet) (sched : Sched) (m1 : OpenVINOModel) (gen1 : List Batch)
    (ev0 : List Event) : Except PyErr CallRes :=
  if net.inputInfo.length = 1 then
    if net.outputs.length = 1 then
      match run_loop m1.batch_size net sched.steps 0 gen1
          { outputs := m1.outputs, reqIds := List.replicate net.numRequests (-1),
            slots := m1.slots, lastSize := none, trace := ev0 } with
      | .error e => .error e
      | .ok st1 => call_finish net sched m1 gen1 st1
    else .error .assertError
  else .error .assertError

/-- `__call__` (lines 132-200): loads the network lazily on first use. -/
def call (avail : Bool) (sched : Sched) (moExitCode : Nat) (m : OpenVINOModel)
    (gen : List Batch) : Except PyErr CallRes :=
  match m.exec_net with
  | some net => call_body net sched m gen []
  | none =>
    match load_model avail m gen moExitCode with
    | .error e => .error e
    | .ok (net, m1, gen1, ev0) => call_body net sched m1 gen1 ev0

/-- `__next__` (lines 202-203): `self.outputs.pop(0)`, an `IndexError` on an
empty list. -/
def next_output (m : OpenVINOModel) : Except PyErr (Option (List Int) × OpenVINOModel) :=
  match m.outputs with
  | [] => .error .indexError
  | o :: rest => .ok (o, { m with outputs := rest })

/-- Projection: the stored output queue of a successful `__call__`. -/
def resOutputs : Except PyErr CallRes → Option (List (Option (List Int)))
  | .ok (m, _, _) => some m.outputs
  | .error _ => none

/-- Projection: the generator a successful `__call__` returns. -/
def resGen : Except PyErr CallRes → Option (List Batch)
  | .ok (_, g, _) => some g
  | .error _ => none

/-- Projection: the event trace of a successful `__call__`. -/
def resTrace : Except PyErr CallRes → Option (List Event)
  | .ok (_, _, tr) => some tr
  | .error _ => none

/-- Whether a result is a success. -/
def okB {α : Type} : Except PyErr α → Bool
  | .ok _ => true
  | .error _ => false

/-- Projection: the length of the stored output queue of a successful call. -/
def resOutLen (x : Except PyErr CallRes) : Option Nat :=
  (resOutputs x).map List.length

/-- Events other than request submission: the model-conversion and
network-loading effects of the lazy first call. -/
def isLoadEvent : Event → Bool
  | .asyncInfer _ _ => false
  | _ => true

/-- A two-slot engine computing rowwise successor; the output buffer of a
request that never ran holds the single row 99. -/
def exNet1 : ExecNet :=
  { inputInfo := ["x"], outputs := ["y"], numRequests := 2,
    netFun := fun l => l.map (fun v => v + 1), initBuf := [99] }

/-- A model object whose network is already loaded on `exNet1`,
`batch_size = 1`, quiescent queue. -/
def exModel1 : OpenVINOModel :=
  { ie := true, exec_net := some exNet1, model := .torch exNet1, model_dir := "d",
    batch_size := 1, outputs := [], slots := [none, none] }

/-- A schedule on which the engine always hands out idle slot 1. -/
def schedHi : Sched := { steps := fun _ => ⟨1, true, 1⟩, finalWaitOk := true }

/-- A schedule on which the engine always hands out idle slot 0. -/
def schedLo : Sched := { steps := fun _ => ⟨0, true, 0⟩, finalWaitOk := true }

/-- A schedule on which no slot is idle and the per-iteration wait fails. -/
def schedBadWait : Sched := { steps := fun _ => ⟨-1, false, 0⟩, finalWaitOk := true }

/-- A schedule on which no slot is idle even after a successful wait. -/
def schedBadRetry : Sched := { steps := fun _ => ⟨-1, true, -1⟩, finalWaitOk := true }

/-- Like `exNet1` but for `batch_size = 2`: the never-run buffer has two rows. -/
def exNet2 : ExecNet :=
  { inputInfo := ["x"], outputs := ["y"], numRequests := 2,
    netFun := fun l => l.map (fun v => v + 1), initBuf := [99, 98] }

/-- A loaded model on `exNet2` with `batch_size = 2`. -/
def exModel2 : OpenVINOModel :=
  { ie := true, exec_net := some exNet2, model := .torch exNet2, model_dir := "d",
    batch_size := 2, outputs := [], slots := [none, none] }

/-- A single-slot engine computing rowwise successor. -/
def exNet3 : ExecNet :=
  { inputInfo := ["x"], outputs := ["y"], numRequests := 1,
    netFun := fun l => l.map (fun v => v + 1), initBuf := [99] }

/-- A loaded model on `exNet3` whose queue still holds one unconsumed result
(row 9) from an earlier call. -/
def exModel3 : OpenVINOModel :=
  { ie := true, exec_net := some exNet3, model := .torch exNet3, model_dir := "d",
    batch_size := 1, outputs := [some [9]], slots := [none] }

/-- A freshly constructed (never called) PyTorch-backed model object. -/
def exTorchFresh : OpenVINOModel := init true (.torch exNet3) "d" 1

/-- The object state after the first call of `exTorchFresh` on the
one-batch generator `[[[5]]]` under `schedLo`. -/
def exTorchLoaded : OpenVINOModel :=
  { ie := true, exec_net := some exNet3, model := .torch exNet3, model_dir := "d",
    batch_size := 1, outputs := [some [6]], slots := [some [5]] }

/-- The event trace of that first call. -/
def exTorchTrace : List Event :=
  [.exportONNX, .readNetworkBuffer, .loadNetwork "CPU", .asyncInfer 0 [5]]

/-- An engine network with two inputs, violating the adapter's
single-input assumption. -/
def exNetMulti : ExecNet :=
  { inputInfo := ["a", "b"], outputs := ["y"], numRequests := 1,
    netFun := fun l => l, initBuf := [] }

/-- A loaded model on the two-input network. -/
def exModelMulti : OpenVINOModel :=
  { ie := true, exec_net := some exNetMulti, model := .torch exNetMulti, model_dir := "d",
    batch_size := 1, outputs := [], slots := [none] }

/-- A training-only placeholder node of the frozen graph. -/
def gN1 : GNode := { op := "Placeholder", name := "unused_control_flow_input_0", dim0 := -1 }

/-- A data placeholder with unknown batch dimension. -/
def gN2 : GNode := { op := "Placeholder", name := "input_x", dim0 := -1 }

/-- A constant node. -/
def gN3 : GNode := { op := "Const", name := "w", dim0 := 7 }

/-- A small frozen graph exercising all three node-processing branches. -/
def exGraph : List GNode := [gN1, gN2, gN3]

/-- The object state after a (second) call of `exModel1` on `[[[5]]]` under
`schedHi`. -/
def exModel1After : OpenVINOModel :=
  { ie := true, exec_net := some exNet1, model := .torch exNet1, model_dir := "d",
    batch_size := 1, outputs := [some [99]], slots := [none, some [5]] }

/-! ### Helper lemmas about the embedded operations -/

theorem setI_length {α : Type} (l : List α) (i : Int) (v : α) :
    (setI l i v).length = l.length := by
  unfold setI
  rcases h : pyIdx l.length i with _ | j <;> simp [h]

theorem pySet_length {α : Type} {l : List α} {i : Int} {v : α} {l2 : List α}
    (h : pySet l i v = .ok l2) : l2.length = l.length := by
  unfold pySet at h
  rcases hj : pyIdx l.length i with _ | j <;> rw [hj] at h
  · exact Except.noConfusion h
  · injection h with h
    subst h
    simp

theorem pyGet_err {α : Type} {l : List α} {i : Int} {e : PyErr}
    (h : pyGet l i = .error e) : e = .indexError := by
  unfold pyGet at h
  rcases hj : pyIdx l.length i with _ | j <;> simp only [hj] at h
  · injection h with h; exact h.symm
  · rcases hv : l.get? j with _ | v <;> simp only [hv] at h
    · injection h with h; exact h.symm
    · exact Except.noConfusion h

theorem pySet_err {α : Type} {l : List α} {i : Int} {v : α} {e : PyErr}
    (h : pySet l i v = .error e) : e = .indexError := by
  unfold pySet at h
  rcases hj : pyIdx l.length i with _ | j <;> rw [hj] at h
  · injection h with h; exact h.symm
  · exact Except.noConfusion h

theorem padBatch_err {bs : Nat} {x : List Int} {e : PyErr}
    (h : padBatch bs x = .error e) : e = .assertError := by
  unfold padBatch at h
  split at h
  · exact Except.noConfusion h
  · split at h
    · exact Except.noConfusion h
    · injection h with h; exact h.symm

theorem pickSlot_ok_of {s : SchedStep} (hw : s.waitOk = true) (hr : 0 ≤ s.retryId) :
    ∃ rr : Int, pickSlot s = .ok rr := by
  unfold pickSlot
  split
  · exact ⟨s.idleId, rfl⟩
  · rw [hw]
    simp only [Bool.true_eq_false, if_false]
    rw [if_neg (by omega)]
    exact ⟨s.retryId, rfl⟩

theorem copyPrev_length {net : ExecNet} {st : CallSt} {r outId : Int}
    {outs : List (Option (List Int))} (h : copyPrev net st r outId = .ok outs) :
    outs.length = st.outputs.length := by
  unfold copyPrev at h
  split at h
  · injection h with h; subst h; rfl
  · exact pySet_length h

theorem copyPrev_err {net : ExecNet} {st : CallSt} {r outId : Int} {e : PyErr}
    (h : copyPrev net st r outId = .error e) : e = .indexError := by
  unfold copyPrev at h
  split at h
  · exact Except.noConfusion h
  · exact pySet_err h

theorem call_step_ok {bs : Nat} {net : ExecNet} {s : SchedStep} {i : Nat} {b : Batch}
    {st st2 : CallSt} (h : call_step bs net s i b st = .ok st2) :
    ∃ (r : Int) (blob : List Int) (outs : List (Option (List Int))) (n : Nat),
      outs.length = st.outputs.length ∧
      st2 = { outputs := outs ++ [none],
              reqIds := setI st.reqIds r (Int.ofNat i),
              slots := setI st.slots r (some blob),
              lastSize := some n,
              trace := st.trace ++ [.asyncInfer r.toNat blob] } := by
  unfold call_step at h
  split at h
  · exact Except.noConfusion h
  rename_i inputs0 hhead
  split at h
  · exact Except.noConfusion h
  rename_i blob hpad
  split at h
  · exact Except.noConfusion h
  rename_i r hpick
  split at h
  · exact Except.noConfusion h
  rename_i outId hget
  split at h
  · exact Except.noConfusion h
  rename_i outs hcopy
  injection h with h
  exact ⟨r, blob, outs, inputs0.length, copyPrev_length hcopy, h.symm⟩

theorem call_step_err {bs : Nat} {net : ExecNet} {s : SchedStep} {i : Nat} {b : Batch}
    {st : CallSt} {e : PyErr} (hw : s.waitOk = true) (hr : 0 ≤ s.retryId)
    (h : call_step bs net s i b st = .error e) :
    e = .assertError ∨ e = .indexError := by
  unfold call_step at h
  split at h
  · injection h with h; exact Or.inr h.symm
  split at h
  · rename_i e2 hpad
    injection h with h
    subst h
    exact Or.inl (padBatch_err hpad)
  split at h
  · rename_i e2 hpick
    obtain ⟨rr, hok⟩ := pickSlot_ok_of hw hr
    rw [hok] at hpick
    exact Except.noConfusion hpick
  split at h
  · rename_i e2 hget
    injection h with h
    subst h
    exact Or.inr (pyGet_err hget)
  split at h
  · rename_i e2 hcopy
    injection h with h
    subst h
    exact Or.inr (copyPrev_err hcopy)
  exact Except.noConfusion h

theorem call_step_outputs_length {bs : Nat} {net : ExecNet} {s : SchedStep} {i : Nat}
    {b : Batch} {st st2 : CallSt} (h : call_step bs net s i b st = .ok st2) :
    st2.outputs.length = st.outputs.length + 1 := by
  obtain ⟨r, blob, outs, n, hlen, rfl⟩ := call_step_ok h
  simp [hlen]

theorem run_loop_outputs_length {bs : Nat} {net : ExecNet} {steps : Nat → SchedStep} :
    ∀ {gs : List Batch} {i : Nat} {st st2 : CallSt},
      run_loop bs net steps i gs st = .ok st2 →
      st2.outputs.length = st.outputs.length + gs.length
  | [], _, _, _, h => by
      unfold run_loop at h
      injection h with h
      subst h
      rfl
  | _ :: rest, i, st, st2, h => by
      unfold run_loop at h
      split at h
      · exact Except.noConfusion h
      · rename_i st1 hstep
        have h1 := call_step_outputs_length hstep
        have h2 := run_loop_outputs_length h
        simp only [List.length_cons]
        omega

theorem run_loop_trace {bs : Nat} {net : ExecNet} {steps : Nat → SchedStep} :
    ∀ {gs : List Batch} {i : Nat} {st st2 : CallSt},
      run_loop bs net steps i gs st = .ok st2 →
      ∃ t, st2.trace = st.trace ++ t ∧ ∀ e ∈ t, isLoadEvent e = false
  | [], _, _, _, h => by
      unfold run_loop at h
      injection h with h
      subst h
      exact ⟨[], by simp, by simp⟩
  | _ :: rest, i, st, st2, h => by
      unfold run_loop at h
      split at h
      · exact Except.noConfusion h
      · rename_i st1 hstep
        obtain ⟨r, blob, outs, n, hlen, rfl⟩ := call_step_ok hstep
        obtain ⟨t, ht, hall⟩ := run_loop_trace h
        refine ⟨Event.asyncInfer r.toNat blob :: t, ?_, ?_⟩
        · rw [ht]
          dsimp only
          rw [List.append_assoc]
          rfl
        · intro e he
          rcases List.mem_cons.mp he with h1 | h1
          · subst h1; rfl
          · exact hall e h1

theorem run_loop_err {bs : Nat} {net : ExecNet} {steps : Nat → SchedStep}
    (hw : ∀ i, (steps i).waitOk = true) (hr : ∀ i, 0 ≤ (steps i).retryId) :
    ∀ {gs : List Batch} {i : Nat} {st : CallSt} {e : PyErr},
      run_loop bs net steps i gs st = .error e →
      e = .assertError ∨ e = .indexError
  | [], _, _, _, h => by
      unfold run_loop at h
      exact Except.noConfusion h
  | _ :: rest, i, st, e, h => by
      unfold run_loop at h
      split at h
      · rename_i e2 hstep
        injection h with h
        subst h
        exact call_step_err (hw i) (hr i) hstep
      · exact run_loop_err hw hr h

theorem drain_one_ok {net : ExecNet} {r : Nat} {outId : Int} {st st2 : CallSt}
    (h : drain_one net r outId st = .ok st2) :
    st2.outputs.length = st.outputs.length ∧ st2.trace = st.trace := by
  unfold drain_one at h
  split at h
  · exact Except.noConfusion h
  · injection h with h
    subst h
    exact ⟨rfl, rfl⟩
  · split at h
    · split at h
      · exact Except.noConfusion h
      · split at h
        · exact Except.noConfusion h
        · rename_i outs hset
          injection h with h
          subst h
          exact ⟨pySet_length hset, rfl⟩
    · split at h
      · exact Except.noConfusion h
      · rename_i outs hset
        injection h with h
        subst h
        exact ⟨pySet_length hset, rfl⟩

theorem drain_one_err {net : ExecNet} {r : Nat} {outId : Int} {st : CallSt} {e : PyErr}
    (h : drain_one net r outId st = .error e) :
    e = .indexError ∨ e = .nameError := by
  unfold drain_one at h
  split at h
  · rename_i e2 hget
    injection h with h
    subst h
    exact Or.inl (pyGet_err hget)
  · exact Except.noConfusion h
  · split at h
    · split at h
      · injection h with h
        exact Or.inr h.symm
      · split at h
        · rename_i e2 hset
          injection h with h
          subst h
          exact Or.inl (pySet_err hset)
        · exact Except.noConfusion h
    · split at h
      · rename_i e2 hset
        injection h with h
        subst h
        exact Or.inl (pySet_err hset)
      · exact Except.noConfusion h

theorem drain_loop_ok {net : ExecNet} :
    ∀ {ids : List Int} {r : Nat} {st st2 : CallSt},
      drain_loop net r ids st = .ok st2 →
      st2.outputs.length = st.outputs.length ∧ st2.trace = st.trace
  | [], _, _, _, h => by
      unfold drain_loop at h
      injection h with h
      subst h
      exact ⟨rfl, rfl⟩
  | _ :: rest, r, st, st2, h => by
      unfold drain_loop at h
      split at h
      · exact Except.noConfusion h
      · rename_i st1 hone
        obtain ⟨h1, h2⟩ := drain_one_ok hone
        obtain ⟨h3, h4⟩ := drain_loop_ok h
        exact ⟨h3.trans h1, h4.trans h2⟩

theorem drain_loop_err {net : ExecNet} :
    ∀ {ids : List Int} {r : Nat} {st : CallSt} {e : PyErr},
      drain_loop net r ids st = .error e →
      e = .indexError ∨ e = .nameError
  | [], _, _, _, h => by
      unfold drain_loop at h
      exact Except.noConfusion h
  | _ :: rest, r, st, e, h => by
      unfold drain_loop at h
      split at h
      · rename_i e2 hone
        injection h with h
        subst h
        exact drain_one_err hone
      · exact drain_loop_err h

theorem read_torch_model_ok {compiled : ExecNet} {gen : List Batch} {net : ExecNet}
    {gen2 : List Batch} {ev : List Event}
    (h : read_torch_model compiled gen = .ok (net, gen2, ev)) :
    net = compiled ∧ gen2 = gen ∧ ev = [.exportONNX, .readNetworkBuffer] := by
  unfold read_torch_model at h
  split at h
  · exact Except.noConfusion h
  · split at h
    · simp only [Except.ok.injEq, Prod.mk.injEq] at h
      exact ⟨h.1.symm, h.2.1.symm, h.2.2.symm⟩
    · exact Except.noConfusion h

theorem read_torch_model_err {compiled : ExecNet} {gen : List Batch} {e : PyErr}
    (h : read_torch_model compiled gen = .error e) :
    e = .stopIteration ∨ e = .assertError := by
  unfold read_torch_model at h
  split at h
  · injection h with h
    exact Or.inl h.symm
  · split at h
    · exact Except.noConfusion h
    · injection h with h
      exact Or.inr h.symm

theorem read_tf_model_err {bs : Nat} {graph : List GNode} {compiled : ExecNet}
    {ec : Nat} {dir : String} {e : PyErr}
    (h : read_tf_model bs graph compiled ec dir = .error e) :
    e = .subprocessError := by
  unfold read_tf_model at h
  split at h
  · exact Except.noConfusion h
  · injection h with h
    exact h.symm

theorem load_model_ok {avail : Bool} {m : OpenVINOModel} {gen : List Batch} {ec : Nat}
    {net : ExecNet} {m1 : OpenVINOModel} {gen1 : List Batch} {ev0 : List Event}
    (h : load_model avail m gen ec = .ok (net, m1, gen1, ev0)) :
    gen1 = gen ∧ m1.outputs = m.outputs ∧ m1.exec_net = some net ∧
    m1.batch_size = m.batch_size ∧ Event.loadNetwork "CPU" ∈ ev0 := by
  unfold load_model at h
  split at h
  · split at h
    · -- torch branch
      split at h
      · exact Except.noConfusion h
      · rename_i compiled hkind net2 gen2 ev hread
        obtain ⟨ha, hb, hc⟩ := read_torch_model_ok hread
        simp only [Except.ok.injEq, Prod.mk.injEq] at h
        obtain ⟨h1, h2, h3, h4⟩ := h
        subst h2 h3 h4
        refine ⟨hb, rfl, ?_, rfl, ?_⟩
        · rw [h1]
        · exact List.mem_append_right _ (List.mem_singleton.mpr rfl)
    · -- keras branch
      split at h
      · exact Except.noConfusion h
      · rename_i graph compiled hkind net2 ev hread
        simp only [Except.ok.injEq, Prod.mk.injEq] at h
        obtain ⟨h1, h2, h3, h4⟩ := h
        subst h2 h3 h4
        refine ⟨rfl, rfl, ?_, rfl, ?_⟩
        · rw [h1]
        · exact List.mem_append_right _ (List.mem_singleton.mpr rfl)
  · exact Except.noConfusion h

theorem load_model_err {avail : Bool} {m : OpenVINOModel} {gen : List Batch} {ec : Nat}
    {e : PyErr} (h : load_model avail m gen ec = .error e) :
    e = .assertError ∨ e = .stopIteration ∨ e = .subprocessError := by
  unfold load_model at h
  split at h
  · split at h
    · split at h
      · rename_i compiled hkind e2 hread
        injection h with h
        subst h
        rcases read_torch_model_err hread with h1 | h1
        · exact Or.inr (Or.inl h1)
        · exact Or.inl h1
      · exact Except.noConfusion h
    · split at h
      · rename_i graph compiled hkind e2 hread
        injection h with h
        subst h
        exact Or.inr (Or.inr (read_tf_model_err hread))
      · exact Except.noConfusion h
  · injection h with h
    exact Or.inl h.symm

theorem call_finish_ok {net : ExecNet} {sched : Sched} {m1 : OpenVINOModel}
    {gen1 : List Batch} {st1 : CallSt} {r : CallRes}
    (h : call_finish net sched m1 gen1 st1 = .ok r) :
    r.2.1 = gen1 ∧
    (r.1).outputs.length = st1.outputs.length ∧
    (r.1).exec_net = m1.exec_net ∧
    r.2.2 = st1.trace := by
  unfold call_finish at h
  split at h
  · split at h
    · exact Except.noConfusion h
    · rename_i st2 hdrain
      simp only [Except.ok.injEq] at h
      subst h
      obtain ⟨hd1, hd2⟩ := drain_loop_ok hdrain
      exact ⟨rfl, hd1, rfl, hd2⟩
  · exact Except.noConfusion h

theorem call_finish_err {net : ExecNet} {sched : Sched} {m1 : OpenVINOModel}
    {gen1 : List Batch} {st1 : CallSt} {e : PyErr} (hf : sched.finalWaitOk = true)
    (h : call_finish net sched m1 gen1 st1 = .error e) :
    e = .indexError ∨ e = .nameError := by
  unfold call_finish at h
  split at h
  · split at h
    · rename_i e2 hdrain
      injection h with h
      subst h
      exact drain_loop_err hdrain
    · exact Except.noConfusion h
  · rename_i hfw
    exact absurd hf hfw

theorem call_body_ok {net : ExecNet} {sched : Sched} {m1 : OpenVINOModel}
    {gen1 : List Batch} {ev0 : List Event} {r : CallRes}
    (h : call_body net sched m1 gen1 ev0 = .ok r) :
    r.2.1 = gen1 ∧
    (r.1).outputs.length = m1.outputs.length + gen1.length ∧
    (r.1).exec_net = m1.exec_net ∧
    ∃ t, r.2.2 = ev0 ++ t ∧ ∀ e ∈ t, isLoadEvent e = false := by
  unfold call_body at h
  split at h
  · split at h
    · split at h
      · exact Except.noConfusion h
      · rename_i st1 hloop
        obtain ⟨hf1, hf2, hf3, hf4⟩ := call_finish_ok h
        have hr1 := run_loop_outputs_length hloop
        obtain ⟨t, ht, hall⟩ := run_loop_trace hloop
        dsimp only at hr1 ht
        refine ⟨hf1, by omega, hf3, t, ?_, hall⟩
        rw [hf4, ht]
    · exact Except.noConfusion h
  · exact Except.noConfusion h

theorem call_body_err {net : ExecNet} {sched : Sched} {m1 : OpenVINOModel}
    {gen1 : List Batch} {ev0 : List Event} {e : PyErr}
    (hw : ∀ i, (sched.steps i).waitOk = true) (hr : ∀ i, 0 ≤ (sched.steps i).retryId)
    (hf : sched.finalWaitOk = true)
    (h : call_body net sched m1 gen1 ev0 = .error e) :
    e = .assertError ∨ e = .indexError ∨ e = .nameError := by
  unfold call_body at h
  split at h
  · split at h
    · split at h
      · rename_i e2 hloop
        injection h with h
        subst h
        rcases run_loop_err hw hr hloop with h1 | h1
        · exact Or.inl h1
        · exact Or.inr (Or.inl h1)
      · rename_i st1 hloop
        rcases call_finish_err hf h with h1 | h1
        · exact Or.inr (Or.inl h1)
        · exact Or.inr (Or.inr h1)
    · injection h with h
      subst h
      exact Or.inl rfl
  · injection h with h
    subst h
    exact Or.inl rfl

theorem call_ok {avail : Bool} {sched : Sched} {ec : Nat} {m : OpenVINOModel}
    {gen : List Batch} {r : CallRes} (h : call avail sched ec m gen = .ok r) :
    r.2.1 = gen ∧ (r.1).outputs.length = m.outputs.length + gen.length := by
  unfold call at h
  split at h
  · obtain ⟨h1, h2, h3, h4⟩ := call_body_ok h
    exact ⟨h1, h2⟩
  · split at h
    · exact Except.noConfusion h
    · rename_i net m1 gen1 ev0 hload
      obtain ⟨hg, ho, hx, hb, hm⟩ := load_model_ok hload
      obtain ⟨h1, h2, h3, h4⟩ := call_body_ok h
      refine ⟨h1.trans hg, ?_⟩
      rw [h2, ho, hg]

theorem call_exec_net_some {avail : Bool} {sched : Sched} {ec : Nat} {m : OpenVINOModel}
    {gen : List Batch} {r : CallRes} {net : ExecNet} (hnet : m.exec_net = some net)
    (h : call avail sched ec m gen = .ok r) :
    r.1.exec_net = some net ∧ ∀ e ∈ r.2.2, isLoadEvent e = false := by
  unfold call at h
  split at h
  · rename_i net2 hnet2
    obtain ⟨h1, h2, h3, h4⟩ := call_body_ok h
    obtain ⟨t, ht, hall⟩ := h4
    refine ⟨by rw [h3, hnet], ?_⟩
    intro e he
    rw [ht] at he
    exact hall e (by simpa using he)
  · rename_i hnet2
    rw [hnet2] at hnet
    exact Option.noConfusion hnet

theorem call_first_load {avail : Bool} {sched : Sched} {ec : Nat} {m : OpenVINOModel}
    {gen : List Batch} {r : CallRes} (hnone : m.exec_net = none)
    (h : call avail sched ec m gen = .ok r) :
    (∃ net, r.1.exec_net = some net) ∧ Event.loadNetwork "CPU" ∈ r.2.2 := by
  unfold call at h
  split at h
  · rename_i net2 hnet2
    rw [hnone] at hnet2
    exact Option.noConfusion hnet2
  · split at h
    · exact Except.noConfusion h
    · rename_i net m1 gen1 ev0 hload
      obtain ⟨hg, ho, hx, hb, hm⟩ := load_model_ok hload
      obtain ⟨h1, h2, h3, h4⟩ := call_body_ok h
      obtain ⟨t, ht, hall⟩ := h4
      refine ⟨⟨net, h3.trans hx⟩, ?_⟩
      rw [ht]
      exact List.mem_append_left _ hm

theorem call_err {avail : Bool} {sched : Sched} {ec : Nat} {m : OpenVINOModel}
    {gen : List Batch} {e : PyErr}
    (hw : ∀ i, (sched.steps i).waitOk = true) (hr : ∀ i, 0 ≤ (sched.steps i).retryId)
    (hf : sched.finalWaitOk = true)
    (h : call avail sched ec m gen = .error e) :
    e ≠ .waitFailed ∧ e ≠ .invalidRequestId := by
  unfold call at h
  split at h
  · rcases call_body_err hw hr hf h with h1 | h1 | h1 <;> subst h1 <;>
      exact ⟨by decide, by decide⟩
  · split at h
    · rename_i e2 hload
      injection h with h
      subst h
      rcases load_model_err hload with h1 | h1 | h1 <;> subst h1 <;>
        exact ⟨by decide, by decide⟩
    · rcases call_body_err hw hr hf h with h1 | h1 | h1 <;> subst h1 <;>
        exact ⟨by decide, by decide⟩

/-! ### Claim theorems -/

/-- Claim C1 is refuted by the code: with a pool of two request slots, a
single-batch generator and an engine that hands out idle slot 1, `__call__`
completes, but the one queued output is the untouched buffer of the never-used
slot 0 — the drain loop reaches that slot with the `-1` sentinel still in
`infer_request_input_id` and writes `self.outputs[-1]` — so `__next__` does
not return the prediction of the batch. -/
theorem c1_unused_slot_corrupts_queue :
    resOutputs (call true schedHi 0 exModel1 [[[5]]]) = some [some exNet1.initBuf] ∧
    some exNet1.initBuf ≠ some ((exNet1.netFun [5]).take 1) :=
  ⟨rfl, by decide⟩

/-- Claim C2, first half confirmed and second half refuted on the same code
bug as C1: the short final batch (1 row, `batch_size = 2`) is submitted padded
to `[5, 0]`, but the stored output for it is the untrimmed two-row buffer of
the unused slot 0 rather than the first row of its prediction. -/
theorem c2_pad_submitted_but_trim_skipped :
    resTrace (call true schedHi 0 exModel2 [[[5]]]) = some [Event.asyncInfer 1 [5, 0]] ∧
    resOutputs (call true schedHi 0 exModel2 [[[5]]]) = some [some exNet2.initBuf] ∧
    exNet2.initBuf.length ≠ 1 ∧
    some exNet2.initBuf ≠ some ((exNet2.netFun [5, 0]).take 1) :=
  ⟨rfl, rfl, by decide, by decide⟩

/-- Claim C3: `__call__` raises its two generic exceptions exactly at the
engine-wait failure points: when every wait returns OK and every post-wait
idle id is non-negative, the result is never `waitFailed` or
`invalidRequestId`; conversely a failing wait produces `waitFailed` and a
negative post-wait id produces `invalidRequestId`. -/
theorem c3_raises_only_on_wait_or_invalid_id :
    (∀ sched : Sched, (∀ i, (sched.steps i).waitOk = true) →
      (∀ i, 0 ≤ (sched.steps i).retryId) → sched.finalWaitOk = true →
      ∀ (avail : Bool) (ec : Nat) (m : OpenVINOModel) (gen : List Batch),
        call avail sched ec m gen ≠ .error .waitFailed ∧
        call avail sched ec m gen ≠ .error .invalidRequestId) ∧
    call true schedBadWait 0 exModel1 [[[5]]] = .error .waitFailed ∧
    call true schedBadRetry 0 exModel1 [[[5]]] = .error .invalidRequestId := by
  refine ⟨?_, rfl, rfl⟩
  intro sched hw hr hf avail ec m gen
  constructor
  · intro hc
    exact (call_err hw hr hf hc).1 rfl
  · intro hc
    exact (call_err hw hr hf hc).2 rfl

theorem c3_raises_only_on_wait_or_invalid_id_witness :
    call true schedLo 0 exModel1 [[[5]]] ≠ .error .waitFailed ∧
    call true schedLo 0 exModel1 [[[5]]] ≠ .error .invalidRequestId :=
  c3_raises_only_on_wait_or_invalid_id.1 schedLo (fun _ => rfl) (fun _ => Int.le_refl 0)
    rfl true 0 exModel1 [[[5]]]

/-- Claim C4 is refuted: `__call__` on an object whose network is already
loaded proceeds successfully even though the availability flag is false, so
not every operation other than `is_available` asserts availability. -/
theorem c4_call_skips_availability_when_loaded :
    okB (call false schedHi 0 exModel1 [[[5]]]) = true := rfl

/-- Claim C4, amended: `is_available` reports the import-time flag, and only
`_load_model` asserts it, so the first `__call__` (with `exec_net` unset)
fails the assertion when the engine is unavailable, while `__next__` and
later `__call__` invocations proceed without re-checking. -/
theorem c4_only_load_asserts_availability :
    (∀ (avail : Bool) (m : OpenVINOModel), is_available avail m = avail) ∧
    (∀ (m : OpenVINOModel) (gen : List Batch) (ec : Nat),
      load_model false m gen ec = .error .assertError) ∧
    (∀ (sched : Sched) (ec : Nat) (m : OpenVINOModel) (gen : List Batch),
      m.exec_net = none → call false sched ec m gen = .error .assertError) := by
  refine ⟨fun _ _ => rfl, fun m gen ec => rfl, fun sched ec m gen hnone => ?_⟩
  unfold call
  split
  · rename_i net hnet
    rw [hnone] at hnet
    exact Option.noConfusion hnet
  · rfl

theorem c4_only_load_asserts_availability_witness :
    exTorchFresh.exec_net = none ∧
    call false schedLo 0 exTorchFresh [[[5]]] = .error .assertError :=
  ⟨rfl, c4_only_load_asserts_availability.2.2 schedLo 0 exTorchFresh [[[5]]] rfl⟩

/-- Claim C5: `__call__` does not consume the caller's stream: whenever it
returns, the generator it hands back (second component) is exactly the input
generator, in both the already-loaded and the lazy-load (including PyTorch,
which reads one batch early from the tee'd copy) paths. -/
theorem c5_generator_returned_unchanged :
    ∀ (avail : Bool) (sched : Sched) (ec : Nat) (m : OpenVINOModel) (gen : List Batch),
      okB (call avail sched ec m gen) = true →
      resGen (call avail sched ec m gen) = some gen := by
  intro avail sched ec m gen hok
  rcases hc : call avail sched ec m gen with e | r
  · rw [hc] at hok
    exact Bool.noConfusion hok
  · rcases r with ⟨m2, g2, tr⟩
    have h5 : g2 = gen := (call_ok hc).1
    unfold resGen
    rw [h5]

theorem c5_generator_returned_unchanged_witness :
    okB (call true schedLo 0 exTorchFresh [[[5]]]) = true ∧
    resGen (call true schedLo 0 exTorchFresh [[[5]]]) = some [[[5]]] :=
  ⟨rfl, c5_generator_returned_unchanged true schedLo 0 exTorchFresh [[[5]]] rfl⟩

/-- Claim C6: conversion and loading are lazy and happen once: a fresh object
has no execution network; a successful call on such an object ends with a
loaded network and a `loadNetwork` event in its trace; a successful call on an
object with a loaded network keeps that very network and performs no
conversion or loading event at all. -/
theorem c6_lazy_load_exactly_once :
    (∀ (avail : Bool) (model : SrcModel) (dir : String) (bs : Nat),
      (init avail model dir bs).exec_net = none) ∧
    (∀ (avail : Bool) (sched : Sched) (ec : Nat) (m : OpenVINOModel) (gen : List Batch)
      (r : CallRes), m.exec_net = none → call avail sched ec m gen = .ok r →
      (∃ net, r.1.exec_net = some net) ∧ Event.loadNetwork "CPU" ∈ r.2.2) ∧
    (∀ (avail : Bool) (sched : Sched) (ec : Nat) (m : OpenVINOModel) (gen : List Batch)
      (r : CallRes) (net : ExecNet), m.exec_net = some net →
      call avail sched ec m gen = .ok r →
      r.1.exec_net = some net ∧ ∀ e ∈ r.2.2, isLoadEvent e = false) :=
  ⟨fun _ _ _ _ => rfl,
   fun _ _ _ _ _ _ hnone h => call_first_load hnone h,
   fun _ _ _ _ _ _ _ hnet h => call_exec_net_some hnet h⟩

theorem c6_lazy_load_exactly_once_witness :
    exTorchFresh.exec_net = none ∧
    ((∃ net, (exTorchLoaded, ([[[5]]] : List Batch), exTorchTrace).1.exec_net = some net) ∧
      Event.loadNetwork "CPU" ∈ (exTorchLoaded, ([[[5]]] : List Batch), exTorchTrace).2.2) ∧
    exModel1.exec_net = some exNet1 ∧
    ((exModel1After, ([[[5]]] : List Batch),
        [Event.asyncInfer 1 [5]]).1.exec_net = some exNet1 ∧
      ∀ e ∈ (exModel1After, ([[[5]]] : List Batch), [Event.asyncInfer 1 [5]]).2.2,
        isLoadEvent e = false) :=
  ⟨rfl,
   c6_lazy_load_exactly_once.2.1 true schedLo 0 exTorchFresh [[[5]]]
     (exTorchLoaded, [[[5]]], exTorchTrace) rfl rfl,
   rfl,
   c6_lazy_load_exactly_once.2.2 true schedHi 0 exModel1 [[[5]]]
     (exModel1After, [[[5]]], [Event.asyncInfer 1 [5]]) exNet1 rfl rfl⟩

/-- Claim C7: the adapter asserts exactly one network input and one network
output in `__call__`, and exactly one input array in the first batch on the
PyTorch conversion path; any violation is an assertion failure. -/
theorem c7_single_input_output_assertions :
    (∀ (avail : Bool) (sched : Sched) (ec : Nat) (m : OpenVINOModel) (gen : List Batch)
      (net : ExecNet), m.exec_net = some net →
      (net.inputInfo.length ≠ 1 ∨ net.outputs.length ≠ 1) →
      call avail sched ec m gen = .error .assertError) ∧
    (∀ (compiled : ExecNet) (first : Batch) (rest : List Batch), first.length ≠ 1 →
      read_torch_model compiled (first :: rest) = .error .assertError) := by
  constructor
  · intro avail sched ec m gen net hnet hbad
    unfold call
    split
    · rename_i net2 hnet2
      rw [hnet] at hnet2
      injection hnet2 with hnet2
      subst hnet2
      unfold call_body
      rcases hbad with hb | hb
      · rw [if_neg hb]
      · by_cases h1 : net.inputInfo.length = 1
        · rw [if_pos h1, if_neg hb]
        · rw [if_neg h1]
    · rename_i hnet2
      rw [hnet2] at hnet
      exact Option.noConfusion hnet
  · intro compiled first rest hne
    simp [read_torch_model, hne]

theorem c7_single_input_output_assertions_witness :
    exModelMulti.exec_net = some exNetMulti ∧
    (exNetMulti.inputInfo.length ≠ 1 ∨ exNetMulti.outputs.length ≠ 1) ∧
    call true schedLo 0 exModelMulti [[[5]]] = .error .assertError ∧
    read_torch_model exNet1 [[[1], [2]]] = .error .assertError :=
  ⟨rfl, Or.inl (by decide),
   c7_single_input_output_assertions.1 true schedLo 0 exModelMulti [[[5]]] exNetMulti
     rfl (Or.inl (by decide)),
   c7_single_input_output_assertions.2 exNet1 [[1], [2]] [] (by decide)⟩

/-- Claim C8: the TensorFlow path freezes the graph, writes the processed
protocol-buffer file, runs the Model Optimizer with a strict check (raising
on a nonzero exit), removes the `.pb`, and reads the `.xml`/`.bin` sidecar
files back, in that order; graph processing deletes training-only
placeholders, pins the unknown batch dimension of the remaining placeholders
to `batch_size`, and keeps non-placeholder nodes. -/
theorem c8_tf_conversion_pipeline :
    (∀ (bs : Nat) (graph : List GNode) (compiled : ExecNet) (dir : String),
      read_tf_model bs graph compiled 0 dir =
        .ok (compiled,
             [.freezeGraph, .writeFile (dir ++ "/model.pb") (processGraph bs graph),
              .runMO true, .removeFile (dir ++ "/model.pb"),
              .readNetworkFiles (dir ++ "/model.xml") (dir ++ "/model.bin")])) ∧
    (∀ (bs : Nat) (graph : List GNode) (compiled : ExecNet) (dir : String) (ec : Nat),
      ec ≠ 0 → read_tf_model bs graph compiled ec dir = .error .subprocessError) ∧
    (∀ (bs : Nat) (graph : List GNode) (n : GNode), n ∈ processGraph bs graph →
      ¬(n.op = "Placeholder" ∧ strStartsWith n.name "unused_control_flow_input" = true)) ∧
    (∀ (bs : Nat) (graph : List GNode) (n : GNode), n ∈ graph → n.op = "Placeholder" →
      strStartsWith n.name "unused_control_flow_input" = false → n.dim0 = -1 →
      { n with dim0 := (bs : Int) } ∈ processGraph bs graph) ∧
    (∀ (bs : Nat) (graph : List GNode) (n : GNode), n ∈ graph →
      n.op ≠ "Placeholder" → n ∈ processGraph bs graph) := by
  refine ⟨fun bs graph compiled dir => by simp [read_tf_model],
          fun bs graph compiled dir ec hne => by simp [read_tf_model, hne],
          ?_, ?_, ?_⟩
  · intro bs graph n hmem
    unfold processGraph at hmem
    obtain ⟨a, ha, hpa⟩ := List.mem_filterMap.mp hmem
    unfold processNode at hpa
    rintro ⟨hop, hsw⟩
    split at hpa
    · split at hpa
      · exact Option.noConfusion hpa
      · rename_i hnsw
        split at hpa
        · injection hpa with hpa
          subst hpa
          exact hnsw hsw
        · injection hpa with hpa
          subst hpa
          exact hnsw hsw
    · rename_i hnop
      injection hpa with hpa
      subst hpa
      exact hnop hop
  · intro bs graph n hmem hop hsw hdim
    refine List.mem_filterMap.mpr ⟨n, hmem, ?_⟩
    unfold processNode
    rw [if_pos hop, if_neg (by simp [hsw]), if_pos hdim]
  · intro bs graph n hmem hop
    refine List.mem_filterMap.mpr ⟨n, hmem, ?_⟩
    unfold processNode
    rw [if_neg hop]

set_option maxRecDepth 8192 in
theorem c8_tf_conversion_pipeline_witness :
    read_tf_model 4 exGraph exNet1 1 "d" = .error .subprocessError ∧
    processGraph 4 exGraph = [{ gN2 with dim0 := 4 }, gN3] ∧
    ¬(gN3.op = "Placeholder" ∧ strStartsWith gN3.name "unused_control_flow_input" = true) ∧
    { gN2 with dim0 := (4 : Int) } ∈ processGraph 4 exGraph ∧
    gN3 ∈ processGraph 4 exGraph :=
  ⟨c8_tf_conversion_pipeline.2.1 4 exGraph exNet1 "d" 1 (by decide), by decide,
   c8_tf_conversion_pipeline.2.2.1 4 exGraph gN3 (by decide),
   c8_tf_conversion_pipeline.2.2.2.1 4 exGraph gN2 (by decide) rfl (by decide) rfl,
   c8_tf_conversion_pipeline.2.2.2.2 4 exGraph gN3 (by decide) (by decide)⟩

/-- Claim C9: `__call__` appends one queue entry per batch to whatever the
queue already holds and nothing ever clears the queue (`__next__` removes
exactly the head), while result writes go to the batch's absolute ordinal;
hence a second invocation that starts with a leftover entry scrambles the
queue: the run on a one-slot engine with leftover `[9]` ends with
`[pred 5, pred 6, None]` instead of leftover followed by the predictions. -/
theorem c9_queue_appends_and_misplaces_on_reentry :
    (∀ (avail : Bool) (sched : Sched) (ec : Nat) (m : OpenVINOModel) (gen : List Batch),
      okB (call avail sched ec m gen) = true →
      resOutLen (call avail sched ec m gen) = some (m.outputs.length + gen.length)) ∧
    (∀ (m : OpenVINOModel) (o : Option (List Int)) (rest : List (Option (List Int))),
      m.outputs = o :: rest → next_output m = .ok (o, { m with outputs := rest })) ∧
    resOutputs (call true schedLo 0 exModel3 [[[5]], [[6]]]) =
      some [some [6], some [7], none] ∧
    ([some [6], some [7], none] : List (Option (List Int))) ≠
      exModel3.outputs ++
        [some ((exNet3.netFun [5]).take 1), some ((exNet3.netFun [6]).take 1)] := by
  refine ⟨?_, ?_, rfl, by decide⟩
  · intro avail sched ec m gen hok
    rcases hc : call avail sched ec m gen with e | r
    · rw [hc] at hok
      exact Bool.noConfusion hok
    · rcases r with ⟨m2, g2, tr⟩
      unfold resOutLen resOutputs
      have h5 : m2.outputs.length = m.outputs.length + gen.length := (call_ok hc).2
      simp [h5]
  · intro m o rest h
    unfold next_output
    rw [h]

theorem c9_queue_appends_and_misplaces_on_reentry_witness :
    okB (call true schedLo 0 exModel3 [[[5]], [[6]]]) = true ∧
    resOutLen (call true schedLo 0 exModel3 [[[5]], [[6]]]) = some 3 ∧
    next_output exModel3 = .ok (some [9], { exModel3 with outputs := [] }) :=
  ⟨rfl,
   c9_queue_appends_and_misplaces_on_reentry.1 true schedLo 0 exModel3 [[[5]], [[6]]] rfl,
   c9_queue_appends_and_misplaces_on_reentry.2.1 exModel3 (some [9]) [] rfl⟩

/-- Claim C10: `__next__` on an empty queue raises (pop from an empty list)
rather than signalling end of iteration, and on any non-empty queue removes
and returns exactly the head, leaving the tail in order. -/
theorem c10_next_pop_semantics :
    (∀ m : OpenVINOModel, m.outputs = [] → next_output m = .error .indexError) ∧
    (∀ (m : OpenVINOModel) (o : Option (List Int)) (rest : List (Option (List Int))),
      m.outputs = o :: rest → next_output m = .ok (o, { m with outputs := rest })) := by
  constructor
  · intro m h
    unfold next_output
    rw [h]
  · intro m o rest h
    unfold next_output
    rw [h]

theorem c10_next_pop_semantics_witness :
    next_output (init true (.torch exNet1) "d" 1) = .error .indexError ∧
    next_output exModel3 = .ok (some [9], { exModel3 with outputs := [] }) :=
  ⟨c10_next_pop_semantics.1 (init true (.torch exNet1) "d" 1) rfl,
   c10_next_pop_semantics.2 exModel3 (some [9]) [] rfl⟩

end OpenVINO
